import Mathlib

/-!
Shallow embedding of the ROI detection and merging core of ophys_etl_pipelines.

The embedded code lives in
  src/ophys_etl/modules/segmentation/detect/feature_vector_utils.py
  src/ophys_etl/modules/segmentation/detect/feature_vector_segmentation.py
  src/ophys_etl/modules/segmentation/merge/metric.py
  src/ophys_etl/modules/segmentation/merge/roi_time_correlation.py

Numeric model: the Python code computes over IEEE floats; the embedding computes over the
exact rationals.  The only non-rational primitive the embedded functions use is the square
root inside a Pearson correlation and inside a standard deviation; it is modelled by
ratSqrt, which is exact whenever the radicand is a ratio of perfect squares.  Every
concrete input evaluated in this development keeps all radicands perfect squares, so all
concrete evaluations below agree exactly with real arithmetic.
-/

/-- Floor of a nonnegative rational, as a natural number. -/
def ratFloorNat (q : ℚ) : ℕ := q.num.toNat / q.den

/-- Ascending sort of a list of rationals. -/
def sortQ (xs : List ℚ) : List ℚ := List.insertionSort (· ≤ ·) xs

/-- Model of np.quantile with the default linear interpolation: on the sorted list s of
length n, the q-quantile sits at fractional position q * (n - 1) and interpolates linearly
between the two neighbouring entries.  Returns 0 on the empty list (where numpy warns and
yields nan; never exercised by the claims). -/
def quantileQ (xs : List ℚ) (q : ℚ) : ℚ :=
  match sortQ xs with
  | [] => 0
  | s =>
    let pos : ℚ := q * ((s.length : ℚ) - 1)
    let i := ratFloorNat pos
    let lo := s.getD i 0
    let hi := s.getD (i + 1) lo
    lo + (pos - (i : ℚ)) * (hi - lo)

/-- Model of np.mean: sum divided by length (0 on the empty list, where numpy yields nan;
never exercised by the claims). -/
def meanQ (xs : List ℚ) : ℚ := xs.sum / (xs.length : ℚ)

/-- Integer square root by scanning: the largest k with k * k ≤ n.  Defined by a fold so
that it reduces inside the kernel. -/
def natSqrtL (n : ℕ) : ℕ :=
  (List.range (n + 1)).foldl (fun acc k => if k * k ≤ n then k else acc) 0

/-- Square root on the rationals, exact whenever the argument is a ratio of perfect
squares (the only case evaluated concretely in this development); 0 on nonpositive
arguments. -/
def ratSqrt (q : ℚ) : ℚ :=
  if q ≤ 0 then 0 else (natSqrtL q.num.toNat : ℚ) / (natSqrtL q.den : ℚ)

/-- Model of np.std with ddof=1: the square root of the unbiased sample variance. -/
def stdDdof1 (xs : List ℚ) : ℚ :=
  let mu := meanQ xs
  ratSqrt ((xs.map (fun x => (x - mu) ^ 2)).sum / ((xs.length : ℚ) - 1))

/-- Helper for argminIdx: carries the best index, best value and current index. -/
def argminAux (best : ℕ) (bestVal : ℚ) (i : ℕ) : List ℚ → ℕ
  | [] => best
  | x :: xs => if x < bestVal then argminAux i x (i + 1) xs else argminAux best bestVal (i + 1) xs

/-- Model of np.argmin: the index of the first minimum of the list (0 on the empty list,
where numpy raises; never exercised by the claims). -/
def argminIdx : List ℚ → ℕ
  | [] => 0
  | x :: xs => argminAux 0 x 1 xs

/-- Model of np.max on a list (0 on the empty list, where numpy raises; never exercised by
the claims). -/
def listMaxQ : List ℚ → ℚ
  | [] => 0
  | x :: xs => xs.foldl max x

/-- Ascending sort of a list of naturals. -/
def sortNat (xs : List ℕ) : List ℕ := List.insertionSort (· ≤ ·) xs

/-- Model of np.unique: the strictly ascending list of the distinct members of the
input. -/
def uniqueNat (xs : List ℕ) : List ℕ := (sortNat xs).dedup

/-- A 2-D image of rational intensities with an explicit shape, modelling a numpy array of
shape (rows, cols); entries outside the shape are irrelevant. -/
structure Image where
  rows : ℕ
  cols : ℕ
  data : ℕ → ℕ → ℚ

/-- A 2-D boolean mask with an explicit shape. -/
structure BoolMask where
  rows : ℕ
  cols : ℕ
  data : ℕ → ℕ → Bool

/-- A video restricted to a spatial window, modelling a numpy array of shape
(nt, rows, cols). -/
structure Video3 where
  nt : ℕ
  rows : ℕ
  cols : ℕ
  data : ℕ → ℕ → ℕ → ℚ

/-- A sub-video flattened in space, modelling a numpy array of shape (nt, npix). -/
structure SubVideo where
  nt : ℕ
  npix : ℕ
  data : ℕ → ℕ → ℚ

/-- Errors raised by the embedded functions.  The detect utilities raise exactly one kind
of error: a RuntimeError on a pixel_ignore mask whose shape disagrees with the metric
image. -/
inductive SegError where
  | shapeMismatch : SegError

/-- Boolean shape guard shared by select_window_size and choose_timesteps: true when no
ignore mask is supplied or when the supplied mask has exactly the image shape. -/
def ignoreShapeOkB (img : Image) (ignore : Option BoolMask) : Bool :=
  match ignore with
  | none => true
  | some m => decide (m.rows = img.rows) && decide (m.cols = img.cols)

/-! Embedding of detect/feature_vector_utils.py: choose_timesteps and select_window_size. -/

/-- Trace of pixel pt of a sub-video: its list of values over time
(sub_video[:, pt[0], pt[1]]). -/
def pixelTrace (v : Video3) (pt : ℕ × ℕ) : List ℚ :=
  (List.range v.nt).map (fun t => v.data t pt.1 pt.2)

/-- Timesteps whose trace value is at or above the (1 - filter_fraction) quantile of the
trace of pixel pt: np.where(trace >= np.quantile(trace, 1 - filter_fraction))[0]. -/
def keepTimesteps (v : Video3) (pt : ℕ × ℕ) (filter_fraction : ℚ) : List ℕ :=
  let thresh := quantileQ (pixelTrace v pt) (1 - filter_fraction)
  (List.range v.nt).filter (fun t => thresh ≤ v.data t pt.1 pt.2)

/-- Value at flat index i of the row-major flattening of an image
(image_data.flatten()). -/
def imageFlatVal (img : Image) (i : ℕ) : ℚ := img.data (i / img.cols) (i % img.cols)

/-- Flat indices of the pixels not marked in the ignore mask
(pixel_indices = np.arange(n)[np.logical_not(pixel_ignore_flat)]). -/
def validPixelIndices (img : Image) (ignore : Option BoolMask) : List ℕ :=
  (List.range (img.rows * img.cols)).filter (fun i =>
    match ignore with
    | none => true
    | some m => !(m.data (i / m.cols) (i % m.cols)))

/-- Brightness values of the non-ignored pixels, in flat row-major order
(image_flat = image_flat[valid_pixels]). -/
def validPixelValues (img : Image) (ignore : Option BoolMask) : List ℚ :=
  (validPixelIndices img ignore).map (imageFlatVal img)

/-- Flat index of the non-ignored pixel whose brightness is closest to
image_max + ds * std, where std is the inter-quartile range of the non-ignored
brightnesses divided by 1.34896 and ties go to the first such pixel
(ii = pixel_indices[np.argmin(np.abs(val - image_flat))]). -/
def auxPixelIndex (img : Image) (ignore : Option BoolMask) (ds : ℚ) : ℕ :=
  let vals := validPixelValues img ignore
  let image_max := listMaxQ vals
  let std := (quantileQ vals 0.75 - quantileQ vals 0.25) / (1.34896 : ℚ)
  let val := image_max + ds * std
  (validPixelIndices img ignore).getD (argminIdx (vals.map (fun v => |val - v|))) 0

/-- Coordinates of the auxiliary pixel for offset ds, unravelled with the spatial shape of
the sub-video (pt = np.unravel_index(ii, sub_video.shape[1:])). -/
def auxPixelPt (v : Video3) (img : Image) (ignore : Option BoolMask) (ds : ℚ) : ℕ × ℕ :=
  let ii := auxPixelIndex img ignore ds
  (ii / v.cols, ii % v.cols)

/-- Embedding of choose_timesteps (detect/feature_vector_utils.py, lines 69-165): raises
on a shape mismatch between pixel_ignore and image_data, and otherwise returns
np.unique of the concatenation of the kept timesteps of the seed pixel and of the two
auxiliary pixels at ds = -1 and ds = -2. -/
def choose_timesteps (sub_video : Video3) (seed_pt : ℕ × ℕ) (filter_fraction : ℚ)
    (image_data : Image) (pixel_ignore : Option BoolMask) : Except SegError (List ℕ) :=
  if ignoreShapeOkB image_data pixel_ignore then
    Except.ok (uniqueNat
      (keepTimesteps sub_video seed_pt filter_fraction ++
       keepTimesteps sub_video (auxPixelPt sub_video image_data pixel_ignore (-1))
         filter_fraction ++
       keepTimesteps sub_video (auxPixelPt sub_video image_data pixel_ignore (-2))
         filter_fraction))
  else Except.error SegError.shapeMismatch

/-- Clipped square window bounds around a seed, as in select_window_size:
r0 = max(0, seed - w) (natural subtraction), r1 = min(rows, seed + w + 1), and likewise
for the columns. -/
structure WinBounds where
  r0 : ℕ
  r1 : ℕ
  c0 : ℕ
  c1 : ℕ

/-- Window bounds of the square window of half side w centred on the seed, clipped to the
image shape. -/
def windowBounds (img : Image) (seed : ℕ × ℕ) (w : ℕ) : WinBounds :=
  ⟨seed.1 - w, min img.rows (seed.1 + w + 1), seed.2 - w, min img.cols (seed.2 + w + 1)⟩

/-- Pixel-use predicate: the complement of the ignore mask, or everything when no mask is
supplied. -/
def pixelUse (ignore : Option BoolMask) : ℕ → ℕ → Bool :=
  fun r c =>
    match ignore with
    | none => true
    | some m => !(m.data r c)

/-- Background of the clipped window: the non-ignored pixel values, flattened row-major
(background = local_image[local_mask].flatten()). -/
def windowBackground (img : Image) (ignore : Option BoolMask) (seed : ℕ × ℕ) (w : ℕ) :
    List ℚ :=
  let b := windowBounds img seed w
  (List.range' b.r0 (b.r1 - b.r0)).flatMap (fun r =>
    (List.range' b.c0 (b.c1 - b.c0)).filterMap (fun c =>
      if pixelUse ignore r c then some (img.data r c) else none))

/-- Robust standard deviation of the window background, floored at 1e-10:
std = max(1.0e-10, (q75 - q25) / 1.34896). -/
def windowStd (img : Image) (ignore : Option BoolMask) (seed : ℕ × ℕ) (w : ℕ) : ℚ :=
  let bg := windowBackground img ignore seed w
  max (1e-10 : ℚ) ((quantileQ bg 0.75 - quantileQ bg 0.25) / (1.34896 : ℚ))

/-- Z-score of the seed flux against the window background:
z = (seed_flux - mean(background)) / std. -/
def windowZScore (img : Image) (ignore : Option BoolMask) (seed : ℕ × ℕ) (w : ℕ) : ℚ :=
  (img.data seed.1 seed.2 - meanQ (windowBackground img ignore seed w)) /
    windowStd img ignore seed w

/-- True when the clipped window spans the full image in both axes (the nested
r0 == 0 and r1 == shape[0] and c0 == 0 and c1 == shape[1] break of the loop). -/
def windowSpans (img : Image) (seed : ℕ × ℕ) (w : ℕ) : Bool :=
  let b := windowBounds img seed w
  decide (b.r0 = 0) && decide (b.r1 = img.rows) && decide (b.c0 = 0) &&
    decide (b.c1 = img.cols)

/-- Window growth step of select_window_size: window = max(3 * window // 2, window + 1). -/
def growWindow (w : ℕ) : ℕ := max (3 * w / 2) (w + 1)

/-- Exit condition of the select_window_size loop at the window just tested: the loop
returns this window when the z-score reaches the target, or the window has reached
window_max, or the clipped window spans the full image in both axes. -/
def swsStop (img : Image) (ignore : Option BoolMask) (seed : ℕ × ℕ) (target : ℚ)
    (wmax : ℕ) (w : ℕ) : Bool :=
  decide (target ≤ windowZScore img ignore seed w) || decide (wmax ≤ w) ||
    windowSpans img seed w

/-- Fuelled unfolding of the select_window_size while loop: test the current window and
either return it or grow it and continue.  Fuel wmax + 1 is always sufficient because the
window grows by at least 1 per iteration and the loop stops at any window ≥ wmax. -/
def swsLoop (img : Image) (ignore : Option BoolMask) (seed : ℕ × ℕ) (target : ℚ)
    (wmax : ℕ) : ℕ → ℕ → ℕ
  | 0, w => w
  | fuel + 1, w =>
    if swsStop img ignore seed target wmax w then w
    else swsLoop img ignore seed target wmax fuel (growWindow w)

/-- Embedding of select_window_size (detect/feature_vector_utils.py, lines 168-255):
raises on a shape mismatch between pixel_ignore and image_data; returns none when the
while loop never runs (the initial z_score is 0.0, so this happens exactly when
target_z_score ≤ 0, and the Python function then returns None); otherwise runs the grow
loop starting at window_min. -/
def select_window_size (seed_pt : ℕ × ℕ) (image_data : Image) (target_z_score : ℚ)
    (window_min window_max : ℕ) (pixel_ignore : Option BoolMask) :
    Except SegError (Option ℕ) :=
  if ignoreShapeOkB image_data pixel_ignore then
    if 0 < target_z_score then
      Except.ok (some (swsLoop image_data pixel_ignore seed_pt target_z_score window_max
        (window_max + 1) window_min))
    else Except.ok none
  else Except.error SegError.shapeMismatch

/-- Sequence of windows tested by select_window_size when no exit condition fires:
w, growWindow w, growWindow (growWindow w), and so on. -/
def windowSeq (w : ℕ) : ℕ → ℕ
  | 0 => w
  | k + 1 => growWindow (windowSeq w k)

/-! Embedding of detect/feature_vector_segmentation.py: edge detection and the
reconciling step of FeatureVectorSegmenter._run (lines 380-404). -/

/-- True when some pixel of row r of the mask is True (mask[r, :].any()). -/
def rowAny (m : BoolMask) (r : ℕ) : Bool := (List.range m.cols).any (fun c => m.data r c)

/-- True when some pixel of column c of the mask is True (mask[:, c].any()). -/
def colAny (m : BoolMask) (c : ℕ) : Bool := (List.range m.rows).any (fun r => m.data r c)

/-- Embedding of _is_roi_at_edge (detect/feature_vector_segmentation.py, lines 117-153):
a True pixel on an extremal row or column of the local mask flags the ROI only when the
window can still grow past that side of the full field of view. -/
def _is_roi_at_edge (origin : ℕ × ℕ) (fov_shape : ℕ × ℕ) (mask : BoolMask) : Bool :=
  let first_row := decide (0 < origin.1) && rowAny mask 0
  let last_row := decide (origin.1 + mask.rows < fov_shape.1) && rowAny mask (mask.rows - 1)
  let first_col := decide (0 < origin.2) && colAny mask 0
  let last_col := decide (origin.2 + mask.cols < fov_shape.2) && colAny mask (mask.cols - 1)
  first_row || last_row || first_col || last_col

/-- Seed and window half side of one ROI growth attempt
(roi_inputs[roi_id] = dict(seed=seed, window=window)). -/
structure RoiInput where
  seed : ℕ × ℕ
  window : ℕ

/-- One growth result collected from the worker dictionary: the ROI id, the input that
produced it, and the (origin, mask) pair stored by the worker. -/
structure GrowthResult where
  id : ℕ
  input : RoiInput
  origin : ℕ × ℕ
  mask : BoolMask

/-- Modelled from the spec: convert_to_lims_roi (utils/roi_utils.py, not under src/)
builds the output ROI record from an id, an origin and a boolean mask; only those three
constituents matter to the reconciling step. -/
structure ROIRecord where
  id : ℕ
  origin : ℕ × ℕ
  mask : BoolMask

/-- Absolute field-of-view coordinates of the True pixels of a mask placed at the given
origin, in row-major order (the loop at lines 395-403 of the source file). -/
def maskPixels (origin : ℕ × ℕ) (m : BoolMask) : List (ℕ × ℕ) :=
  (List.range m.rows).flatMap (fun ir =>
    (List.range m.cols).filterMap (fun ic =>
      if m.data ir ic then some (origin.1 + ir, origin.2 + ic) else none))

/-- Number of True pixels of a mask (mask.sum()). -/
def maskSum (m : BoolMask) : ℕ := (maskPixels (0, 0) m).length

/-- State mutated by the reconciling step: the accumulated ROI list, the claimed pixels of
the global occupancy map, the retry queue for the next seeding round, and the pixels
reported to the seeder for exclusion. -/
structure DetectState where
  roiList : List ROIRecord
  roiPixels : List (ℕ × ℕ)
  retryQueue : List RoiInput
  excludedPixels : List (ℕ × ℕ)

/-- Embedding of one iteration of the reconciling loop of FeatureVectorSegmenter._run
(lines 380-404): an at-edge result whose window is below window_max is queued for retry;
otherwise a mask with more than one True pixel becomes an ROI record, its pixels are added
to the occupancy map and reported to the seeder, and any smaller mask is discarded. -/
def reconcileOne (window_max : ℕ) (fov_shape : ℕ × ℕ) (st : DetectState)
    (res : GrowthResult) : DetectState :=
  if _is_roi_at_edge res.origin fov_shape res.mask = true ∧ res.input.window < window_max
  then { st with retryQueue := st.retryQueue ++ [res.input] }
  else if 1 < maskSum res.mask then
    { st with
      roiList := st.roiList ++ [⟨res.id, res.origin, res.mask⟩],
      roiPixels := st.roiPixels ++ maskPixels res.origin res.mask,
      excludedPixels := st.excludedPixels ++ maskPixels res.origin res.mask }
  else st

/-- Embedding of the whole reconciling loop: fold reconcileOne over the collected growth
results in order. -/
def reconcile (window_max : ℕ) (fov_shape : ℕ × ℕ) (st : DetectState)
    (results : List GrowthResult) : DetectState :=
  results.foldl (reconcileOne window_max fov_shape) st

/-! Embedding of merge/roi_time_correlation.py and merge/metric.py. -/

/-- Timesteps kept by correlate_sub_video: those where the reference timeseries is at or
above its (1 - filter_fraction) quantile. -/
def keptTimesteps (nt : ℕ) (timeseries : ℕ → ℚ) (filter_fraction : ℚ) : List ℕ :=
  let tsList := (List.range nt).map timeseries
  let th := quantileQ tsList (1 - filter_fraction)
  (List.range nt).filter (fun t => th ≤ timeseries t)

/-- Embedding of correlate_sub_video (merge/roi_time_correlation.py, lines 75-121): the
Pearson correlation of every pixel of the sub-video against the reference timeseries,
restricted to the brightest filter_fraction timesteps of the timeseries. -/
def correlate_sub_video (sub_video : SubVideo) (timeseries : ℕ → ℚ)
    (filter_fraction : ℚ) : List ℚ :=
  let kept := keptTimesteps sub_video.nt timeseries filter_fraction
  let ntime : ℚ := (kept.length : ℚ)
  let t_mu := meanQ (kept.map timeseries)
  let t_var := meanQ (kept.map (fun t => (timeseries t - t_mu) ^ 2))
  (List.range sub_video.npix).map (fun p =>
    let vid_mu := meanQ (kept.map (fun t => sub_video.data t p))
    let sub_var := meanQ (kept.map (fun t => (sub_video.data t p - vid_mu) ^ 2))
    let numerator :=
      (kept.map (fun t => (timeseries t - t_mu) * (sub_video.data t p - vid_mu))).sum /
        ntime
    numerator / ratSqrt (sub_var * t_var))

/-- Embedding of calculate_merger_metric (merge/roi_time_correlation.py, lines 317-364):
z-score the correlations of the probed video against the reference (mu, std) model and
return the median z-score (np.quantile(z_score, 0.5)). -/
def calculate_merger_metric (distribution_params : ℚ × ℚ) (distribution_centroid : ℕ → ℚ)
    (roi_video : SubVideo) (filter_fraction : ℚ) : ℚ :=
  let z := (correlate_sub_video roi_video distribution_centroid filter_fraction).map
    (fun c => (c - distribution_params.1) / distribution_params.2)
  quantileQ z 0.5

/-- Embedding of get_self_correlation (merge/roi_time_correlation.py, lines 367-408):
(0.0, 1.0) on fewer than two pixels and otherwise the sample mean and ddof=1 standard
deviation of the correlations against the characteristic timeseries. -/
def get_self_correlation (sub_video : SubVideo) (characteristic_timeseries : ℕ → ℚ)
    (filter_fraction : ℚ) : ℚ × ℚ :=
  if sub_video.npix < 2 then (0, 1)
  else
    let corr := correlate_sub_video sub_video characteristic_timeseries filter_fraction
    (meanQ corr, stdDdof1 corr)

/-- Score stored for one pair by _calculate_merger_metric (merge/metric.py, lines 75-103):
the maximum of the two directional metrics, where a direction whose reference ROI has
fewer than 2 pixels or an area below half the probed area is forced to -999.0. -/
def mergerMetricForPair (video_lookup : ℕ → SubVideo) (timeseries_lookup : ℕ → ℕ → ℚ)
    (self_corr_lookup : ℕ → ℚ × ℚ) (filter_fraction : ℚ) (pair : ℕ × ℕ) : ℚ :=
  let video0 := video_lookup pair.1
  let video1 := video_lookup pair.2
  let area0 := video0.npix
  let area1 := video1.npix
  let metric01 :=
    if area0 < 2 ∨ (area0 : ℚ) < 0.5 * (area1 : ℚ) then -999
    else calculate_merger_metric (self_corr_lookup pair.1) (timeseries_lookup pair.1)
      video1 filter_fraction
  let metric10 :=
    if area1 < 2 ∨ (area1 : ℚ) < 0.5 * (area0 : ℚ) then -999
    else calculate_merger_metric (self_corr_lookup pair.2) (timeseries_lookup pair.2)
      video0 filter_fraction
  max metric01 metric10

/-- Embedding of _calculate_merger_metric (merge/metric.py, lines 22-103): write the score
of every pair of the input list into the output dictionary, modelled as a partial map
updated in order. -/
def _calculate_merger_metric (input_pair_list : List (ℕ × ℕ))
    (video_lookup : ℕ → SubVideo) (timeseries_lookup : ℕ → ℕ → ℚ)
    (self_corr_lookup : ℕ → ℚ × ℚ) (filter_fraction : ℚ)
    (output_dict : (ℕ × ℕ) → Option ℚ) : (ℕ × ℕ) → Option ℚ :=
  input_pair_list.foldl
    (fun d pair => fun q =>
      if q = pair then
        some (mergerMetricForPair video_lookup timeseries_lookup self_corr_lookup
          filter_fraction pair)
      else d q)
    output_dict

/-- Chunk size used by get_merger_metric_from_pairs:
chunksize = max(n_pairs // (4 * n_processors - 1), 1).  The subtraction is natural
subtraction, which agrees with the Python integers whenever n_processors ≥ 1. -/
def chunkSizeOfPairs (n_pairs n_processors : ℕ) : ℕ :=
  max (n_pairs / (4 * n_processors - 1)) 1

/-- Fuelled contiguous chunking (for i0 in range(0, n_pairs, chunksize)); fuel at least
the list length is sufficient whenever the chunk size is positive. -/
def chunksOfAux {α : Type} (k : ℕ) : ℕ → List α → List (List α)
  | _, [] => []
  | 0, _ :: _ => []
  | fuel + 1, x :: xs => (x :: xs).take k :: chunksOfAux k fuel ((x :: xs).drop k)

/-- Contiguous chunks of size k of a list (the final chunk may be shorter). -/
def chunksOf {α : Type} (l : List α) (k : ℕ) : List (List α) := chunksOfAux k l.length l

/-- ROI ids referenced by some pair of a chunk (the this_roi_id set of the source). -/
def chunkRoiIds (chunk : List (ℕ × ℕ)) : List ℕ :=
  (chunk.map Prod.fst ++ chunk.map Prod.snd).dedup

/-- Restriction of a lookup to a set of ids, as the per-chunk dictionaries this_video,
this_pixel and this_corr of the source: ids outside the chunk are simply absent. -/
def restrictLookup {α : Type} (ids : List ℕ) (lookup : ℕ → α) (dflt : α) : ℕ → α :=
  fun i => if i ∈ ids then lookup i else dflt

/-- Modelled from the spec: create_self_corr_lookup (merge/self_correlation.py, not under
src/) builds the self-correlation model of every ROI id referenced by a candidate pair by
applying get_self_correlation (section 4.7 of the spec) to the sub-video and
characteristic timeseries of that ROI, computed once up front.  Modelled as a total
lookup; the scheduler hands each worker only its restriction to the ids of the chunk. -/
def create_self_corr_lookup (video_lookup : ℕ → SubVideo)
    (timeseries_lookup : ℕ → ℕ → ℚ) (filter_fraction : ℚ) : ℕ → ℚ × ℚ :=
  fun i => get_self_correlation (video_lookup i) (timeseries_lookup i) filter_fraction

/-- One worker launch of get_merger_metric_from_pairs: run _calculate_merger_metric on
one chunk, handing the worker only the restriction of each lookup to the ROI ids
appearing in that chunk (the this_video, this_pixel and this_corr dictionaries of the
source), writing into the shared output dictionary. -/
def mergeChunkStep (video_lookup : ℕ → SubVideo) (timeseries_lookup : ℕ → ℕ → ℚ)
    (self_corr_lookup : ℕ → ℚ × ℚ) (filter_fraction : ℚ)
    (d : (ℕ × ℕ) → Option ℚ) (chunk : List (ℕ × ℕ)) : (ℕ × ℕ) → Option ℚ :=
  let ids := chunkRoiIds chunk
  _calculate_merger_metric chunk
    (restrictLookup ids video_lookup ⟨0, 0, fun _ _ => 0⟩)
    (restrictLookup ids timeseries_lookup (fun _ => 0))
    (restrictLookup ids self_corr_lookup (0, 0))
    filter_fraction d

/-- Embedding of get_merger_metric_from_pairs (merge/metric.py, lines 106-201): build the
self-correlation lookup, cut the pair list into contiguous chunks of size
max(n_pairs // (4 * n_processors - 1), 1), run _calculate_merger_metric on every chunk
with the lookups restricted to the ids of that chunk, and collect all results in one
mapping.  The parallel workers write to disjoint keys of one managed dictionary, so the
fold over chunks in list order computes the same mapping. -/
def get_merger_metric_from_pairs (potential_mergers : List (ℕ × ℕ))
    (video_lookup : ℕ → SubVideo) (timeseries_lookup : ℕ → ℕ → ℚ)
    (filter_fraction : ℚ) (n_processors : ℕ) : (ℕ × ℕ) → Option ℚ :=
  let self_corr :=
    create_self_corr_lookup video_lookup timeseries_lookup filter_fraction
  let chunksize := chunkSizeOfPairs potential_mergers.length n_processors
  (chunksOf potential_mergers chunksize).foldl
    (mergeChunkStep video_lookup timeseries_lookup self_corr filter_fraction)
    (fun _ => none)

/-! Lemmas about the select_window_size loop, and the claims about it. -/

/-- The growth step strictly increases the window. -/
theorem lt_growWindow (w : ℕ) : w < growWindow w :=
  lt_of_lt_of_le (Nat.lt_succ_self w) (le_max_right _ _)

/-- Shifting the window sequence by one growth step. -/
theorem windowSeq_shift (w : ℕ) : ∀ k, windowSeq w (k + 1) = windowSeq (growWindow w) k
  | 0 => rfl
  | k + 1 => by rw [windowSeq, windowSeq_shift w k, windowSeq]

/-- The boolean exit condition unfolded to a proposition. -/
theorem swsStop_iff (img : Image) (ignore : Option BoolMask) (seed : ℕ × ℕ) (target : ℚ)
    (wmax w : ℕ) :
    swsStop img ignore seed target wmax w = true ↔
      (target ≤ windowZScore img ignore seed w ∨ wmax ≤ w ∨
        windowSpans img seed w = true) := by
  simp [swsStop, Bool.or_eq_true, decide_eq_true_eq, or_assoc]

/-- Characterization of the fuelled loop: with enough fuel it returns the first window of
the growth sequence at which the exit condition holds. -/
theorem swsLoop_char (img : Image) (ignore : Option BoolMask) (seed : ℕ × ℕ) (target : ℚ)
    (wmax : ℕ) (fuel : ℕ) :
    ∀ w, wmax < w + fuel →
      ∃ k, swsLoop img ignore seed target wmax fuel w = windowSeq w k ∧
        swsStop img ignore seed target wmax (windowSeq w k) = true ∧
        ∀ j, j < k → swsStop img ignore seed target wmax (windowSeq w j) = false := by
  induction fuel with
  | zero =>
    intro w h
    refine ⟨0, rfl, ?_, by omega⟩
    have hw : wmax ≤ w := by omega
    show swsStop img ignore seed target wmax w = true
    simp [swsStop, hw]
  | succ fuel ih =>
    intro w h
    by_cases hs : swsStop img ignore seed target wmax w = true
    · exact ⟨0, by rw [swsLoop, if_pos hs]; rfl, hs, by omega⟩
    · have hns : swsStop img ignore seed target wmax w = false :=
        Bool.eq_false_iff.mpr hs
      have hgw := lt_growWindow w
      obtain ⟨k, hk, hstop, hmin⟩ := ih (growWindow w) (by omega)
      refine ⟨k + 1, ?_, ?_, ?_⟩
      · rw [swsLoop, if_neg hs, hk, windowSeq_shift]
      · rw [windowSeq_shift]; exact hstop
      · intro j hj
        cases j with
        | zero => exact hns
        | succ j => rw [windowSeq_shift]; exact hmin j (by omega)

/-- Claim C2: select_window_size starts at window_min, grows the window by
max(3 * window // 2, window + 1) whenever the z-score of the seed (seed flux minus
background mean, divided by the robust std max(1e-10, (q75 - q25) / 1.34896) over the
non-ignored pixels of the clipped square window) stays below target_z_score, and returns
the first tested window at which the z-score reaches the target, or the window has
reached window_max, or the clipped window spans the full image in both axes. -/
theorem claim_C2 (seed_pt : ℕ × ℕ) (image_data : Image) (target_z_score : ℚ)
    (window_min window_max : ℕ) (pixel_ignore : Option BoolMask)
    (hok : ignoreShapeOkB image_data pixel_ignore = true)
    (htgt : 0 < target_z_score) :
    windowSeq window_min 0 = window_min ∧
    (∀ j, windowSeq window_min (j + 1) =
      max (3 * windowSeq window_min j / 2) (windowSeq window_min j + 1)) ∧
    ∃ k,
      select_window_size seed_pt image_data target_z_score window_min window_max
          pixel_ignore = Except.ok (some (windowSeq window_min k)) ∧
      (target_z_score ≤ windowZScore image_data pixel_ignore seed_pt (windowSeq window_min k) ∨
        window_max ≤ windowSeq window_min k ∨
        windowSpans image_data seed_pt (windowSeq window_min k) = true) ∧
      ∀ j, j < k →
        ¬(target_z_score ≤ windowZScore image_data pixel_ignore seed_pt (windowSeq window_min j) ∨
          window_max ≤ windowSeq window_min j ∨
          windowSpans image_data seed_pt (windowSeq window_min j) = true) := by
  refine ⟨rfl, fun j => rfl, ?_⟩
  obtain ⟨k, hk, hstop, hmin⟩ :=
    swsLoop_char image_data pixel_ignore seed_pt target_z_score window_max
      (window_max + 1) window_min (by omega)
  refine ⟨k, ?_, (swsStop_iff _ _ _ _ _ _).mp hstop, fun j hj => ?_⟩
  · rw [select_window_size, if_pos hok, if_pos htgt, hk]
  · intro hcontra
    have := (swsStop_iff image_data pixel_ignore seed_pt target_z_score window_max
      (windowSeq window_min j)).mpr hcontra
    rw [hmin j hj] at this
    exact Bool.false_ne_true this

/-- Witness for claim C2 at a concrete input: a 3 by 3 constant image, seed (1, 1),
target 2, window_min 1, window_max 5, no ignore mask. -/
theorem claim_C2_witness :
    windowSeq 1 0 = 1 ∧
    (∀ j, windowSeq 1 (j + 1) = max (3 * windowSeq 1 j / 2) (windowSeq 1 j + 1)) ∧
    ∃ k,
      select_window_size (1, 1) ⟨3, 3, fun _ _ => 0⟩ 2 1 5 none =
        Except.ok (some (windowSeq 1 k)) ∧
      (2 ≤ windowZScore ⟨3, 3, fun _ _ => 0⟩ none (1, 1) (windowSeq 1 k) ∨
        5 ≤ windowSeq 1 k ∨
        windowSpans ⟨3, 3, fun _ _ => 0⟩ (1, 1) (windowSeq 1 k) = true) ∧
      ∀ j, j < k →
        ¬(2 ≤ windowZScore ⟨3, 3, fun _ _ => 0⟩ none (1, 1) (windowSeq 1 j) ∨
          5 ≤ windowSeq 1 j ∨
          windowSpans ⟨3, 3, fun _ _ => 0⟩ (1, 1) (windowSeq 1 j) = true) :=
  claim_C2 (1, 1) ⟨3, 3, fun _ _ => 0⟩ 2 1 5 none rfl (by norm_num)

/-- Claim C7: select_window_size terminates on every metric image, flat images included:
the robust std is floored at 1e-10 (so the z-score never divides by zero), the window
strictly increases at each growth step, and the returned value is a window at which an
exit condition (target reached, window at or past window_max, or window spanning the full
image) holds. -/
theorem claim_C7 (seed_pt : ℕ × ℕ) (image_data : Image) (target_z_score : ℚ)
    (window_min window_max : ℕ) (pixel_ignore : Option BoolMask)
    (hok : ignoreShapeOkB image_data pixel_ignore = true)
    (htgt : 0 < target_z_score) :
    (∀ w, (1e-10 : ℚ) ≤ windowStd image_data pixel_ignore seed_pt w) ∧
    (∀ w, w < growWindow w) ∧
    ∃ w,
      select_window_size seed_pt image_data target_z_score window_min window_max
          pixel_ignore = Except.ok (some w) ∧
      (target_z_score ≤ windowZScore image_data pixel_ignore seed_pt w ∨
        window_max ≤ w ∨ windowSpans image_data seed_pt w = true) := by
  refine ⟨fun w => le_max_left _ _, lt_growWindow, ?_⟩
  obtain ⟨k, hk, hstop, _⟩ :=
    swsLoop_char image_data pixel_ignore seed_pt target_z_score window_max
      (window_max + 1) window_min (by omega)
  refine ⟨windowSeq window_min k, ?_, (swsStop_iff _ _ _ _ _ _).mp hstop⟩
  rw [select_window_size, if_pos hok, if_pos htgt, hk]

/-- Uniformly flat 70 by 1 image used to exercise the window loop on a zero-variance
background: the z-score is identically 0, so the loop only stops through the window_max
test. -/
def flatImage70 : Image := ⟨70, 1, fun _ _ => 5⟩

/-- Witness for claim C7 at a concrete input: the uniformly flat image, seed (35, 0),
target 2, window_min 20, window_max 40, no ignore mask. -/
theorem claim_C7_witness :
    (∀ w, (1e-10 : ℚ) ≤ windowStd flatImage70 none (35, 0) w) ∧
    (∀ w, w < growWindow w) ∧
    ∃ w,
      select_window_size (35, 0) flatImage70 2 20 40 none = Except.ok (some w) ∧
      (2 ≤ windowZScore flatImage70 none (35, 0) w ∨
        40 ≤ w ∨ windowSpans flatImage70 (35, 0) w = true) :=
  claim_C7 (35, 0) flatImage70 2 20 40 none rfl (by norm_num)

/-- Claim C10: the returned window can strictly exceed window_max, because the growth step
max(3 * window // 2, window + 1) is applied before the window_max test and the result is
never clamped: on the flat 70 by 1 image with window_min 20 and window_max 40 the loop
tests 20, 30, 45 and returns 45 > 40. -/
theorem claim_C10 :
    windowSeq 20 0 = 20 ∧ windowSeq 20 1 = 30 ∧ windowSeq 20 2 = 45 ∧
    select_window_size (35, 0) flatImage70 2 20 40 none = Except.ok (some 45) ∧
    40 < 45 :=
  ⟨rfl, by decide, by decide,
   by set_option maxRecDepth 200000 in with_unfolding_all rfl, by decide⟩

/-- Claim C4: the edge-detection predicate returns True exactly when some True pixel lies
on an extremal row or column of the local mask and the window can still grow on that same
side: row 0 needs origin row > 0, the last row needs origin row + mask rows < fov rows,
and likewise for columns; the mask shape is positive because numpy rejects indexing
row -1 of an empty mask. -/
theorem claim_C4 (origin fov_shape : ℕ × ℕ) (mask : BoolMask)
    (hr : 0 < mask.rows) (hc : 0 < mask.cols) :
    _is_roi_at_edge origin fov_shape mask = true ↔
      ((0 < origin.1 ∧ ∃ c, c < mask.cols ∧ mask.data 0 c = true) ∨
       (origin.1 + mask.rows < fov_shape.1 ∧
         ∃ c, c < mask.cols ∧ mask.data (mask.rows - 1) c = true) ∨
       (0 < origin.2 ∧ ∃ r, r < mask.rows ∧ mask.data r 0 = true) ∨
       (origin.2 + mask.cols < fov_shape.2 ∧
         ∃ r, r < mask.rows ∧ mask.data r (mask.cols - 1) = true)) := by
  simp only [_is_roi_at_edge, rowAny, colAny, Bool.or_eq_true, Bool.and_eq_true,
    decide_eq_true_eq, List.any_eq_true, List.mem_range]
  constructor
  · rintro (((⟨h1, c, hc1, hc2⟩ | ⟨h1, c, hc1, hc2⟩) | ⟨h1, r, hr1, hr2⟩) | ⟨h1, r, hr1, hr2⟩)
    · exact Or.inl ⟨h1, c, hc1, hc2⟩
    · exact Or.inr (Or.inl ⟨h1, c, hc1, hc2⟩)
    · exact Or.inr (Or.inr (Or.inl ⟨h1, r, hr1, hr2⟩))
    · exact Or.inr (Or.inr (Or.inr ⟨h1, r, hr1, hr2⟩))
  · rintro (⟨h1, c, hc1, hc2⟩ | ⟨h1, c, hc1, hc2⟩ | ⟨h1, r, hr1, hr2⟩ | ⟨h1, r, hr1, hr2⟩)
    · exact Or.inl (Or.inl (Or.inl ⟨h1, c, hc1, hc2⟩))
    · exact Or.inl (Or.inl (Or.inr ⟨h1, c, hc1, hc2⟩))
    · exact Or.inl (Or.inr ⟨h1, r, hr1, hr2⟩)
    · exact Or.inr ⟨h1, r, hr1, hr2⟩

/-- Witness for claim C4 at a concrete input: a 2 by 2 all-True mask with origin (1, 1)
inside a 10 by 10 field of view. -/
theorem claim_C4_witness :
    _is_roi_at_edge (1, 1) (10, 10) ⟨2, 2, fun _ _ => true⟩ = true ↔
      ((0 < 1 ∧ ∃ c, c < 2 ∧ (fun (_ _ : ℕ) => true) 0 c = true) ∨
       (1 + 2 < 10 ∧ ∃ c, c < 2 ∧ (fun (_ _ : ℕ) => true) (2 - 1) c = true) ∨
       (0 < 1 ∧ ∃ r, r < 2 ∧ (fun (_ _ : ℕ) => true) r 0 = true) ∨
       (1 + 2 < 10 ∧ ∃ r, r < 2 ∧ (fun (_ _ : ℕ) => true) r (2 - 1) = true)) :=
  claim_C4 (1, 1) (10, 10) ⟨2, 2, fun _ _ => true⟩ (by decide) (by decide)

/-- Claim C6: select_window_size and choose_timesteps fail with the shape-mismatch error
exactly when a pixel_ignore mask is supplied whose shape differs from the shape of the
metric image; the test depends only on the two shapes (so it fires before any computation
on the data), and no error is produced when the shapes agree or no mask is supplied. -/
theorem claim_C6 (sub_video : Video3) (seed_pt : ℕ × ℕ)
    (filter_fraction target_z_score : ℚ) (window_min window_max : ℕ)
    (image_data : Image) (pixel_ignore : Option BoolMask) :
    (select_window_size seed_pt image_data target_z_score window_min window_max
        pixel_ignore = Except.error SegError.shapeMismatch ↔
      ignoreShapeOkB image_data pixel_ignore = false) ∧
    (choose_timesteps sub_video seed_pt filter_fraction image_data pixel_ignore =
        Except.error SegError.shapeMismatch ↔
      ignoreShapeOkB image_data pixel_ignore = false) ∧
    (ignoreShapeOkB image_data pixel_ignore = false ↔
      ∃ m, pixel_ignore = some m ∧
        ¬(m.rows = image_data.rows ∧ m.cols = image_data.cols)) := by
  refine ⟨?_, ?_, ?_⟩
  · rw [select_window_size]
    by_cases h : ignoreShapeOkB image_data pixel_ignore = true
    · rw [if_pos h, h]
      constructor
      · intro hcontra
        by_cases ht : 0 < target_z_score
        · rw [if_pos ht] at hcontra; cases hcontra
        · rw [if_neg ht] at hcontra; cases hcontra
      · intro hcontra; cases hcontra
    · rw [if_neg h]
      simp [Bool.eq_false_iff.mpr h]
  · rw [choose_timesteps]
    by_cases h : ignoreShapeOkB image_data pixel_ignore = true
    · rw [if_pos h, h]
      constructor
      · intro hcontra; cases hcontra
      · intro hcontra; cases hcontra
    · rw [if_neg h]
      simp [Bool.eq_false_iff.mpr h]
  · cases pixel_ignore with
    | none => simp [ignoreShapeOkB]
    | some m => simp [ignoreShapeOkB, not_and_or]

/-- Single-step membership: an ROI in the state after reconcileOne was already there or
carries a mask with more than one True pixel. -/
theorem reconcileOne_roiList_mem (window_max : ℕ) (fov_shape : ℕ × ℕ) (st : DetectState)
    (res : GrowthResult) (r : ROIRecord)
    (h : r ∈ (reconcileOne window_max fov_shape st res).roiList) :
    r ∈ st.roiList ∨ 1 < maskSum r.mask := by
  rw [reconcileOne] at h
  by_cases h1 : _is_roi_at_edge res.origin fov_shape res.mask = true ∧
      res.input.window < window_max
  · rw [if_pos h1] at h; exact Or.inl h
  · rw [if_neg h1] at h
    by_cases h2 : 1 < maskSum res.mask
    · rw [if_pos h2] at h
      rcases List.mem_append.mp h with h3 | h3
      · exact Or.inl h3
      · rcases List.mem_singleton.mp h3 with rfl
        exact Or.inr h2
    · rw [if_neg h2] at h; exact Or.inl h

/-- Fold membership: an ROI in the state after the whole reconciling loop was already
there or carries a mask with more than one True pixel. -/
theorem reconcile_roiList_mem (window_max : ℕ) (fov_shape : ℕ × ℕ) :
    ∀ (results : List GrowthResult) (st : DetectState) (r : ROIRecord),
      r ∈ (reconcile window_max fov_shape st results).roiList →
      r ∈ st.roiList ∨ 1 < maskSum r.mask := by
  intro results
  induction results with
  | nil => intro st r h; exact Or.inl h
  | cons res rest ih =>
    intro st r h
    rcases ih (reconcileOne window_max fov_shape st res) r h with h2 | h2
    · exact reconcileOne_roiList_mem window_max fov_shape st res r h2
    · exact Or.inr h2

/-- Claim C3: in the reconciling step, an at-edge result with window below window_max is
queued for retry and not added as an ROI; any other result with more than one True pixel
becomes an ROI record whose pixels are claimed in the occupancy map and reported to the
seeder; any other result with at most one True pixel is silently discarded; and every ROI
ever emitted by the loop has strictly more than one pixel.  An at-edge result whose
window has reached window_max falls into the last two cases, so it is accepted as-is. -/
theorem claim_C3 (window_max : ℕ) (fov_shape : ℕ × ℕ) (st : DetectState)
    (res : GrowthResult) (results : List GrowthResult) :
    (_is_roi_at_edge res.origin fov_shape res.mask = true ∧
        res.input.window < window_max →
      reconcileOne window_max fov_shape st res =
        { st with retryQueue := st.retryQueue ++ [res.input] }) ∧
    (¬(_is_roi_at_edge res.origin fov_shape res.mask = true ∧
        res.input.window < window_max) →
      1 < maskSum res.mask →
      reconcileOne window_max fov_shape st res =
        { st with
          roiList := st.roiList ++ [⟨res.id, res.origin, res.mask⟩],
          roiPixels := st.roiPixels ++ maskPixels res.origin res.mask,
          excludedPixels := st.excludedPixels ++ maskPixels res.origin res.mask }) ∧
    (¬(_is_roi_at_edge res.origin fov_shape res.mask = true ∧
        res.input.window < window_max) →
      maskSum res.mask ≤ 1 →
      reconcileOne window_max fov_shape st res = st) ∧
    (∀ r ∈ (reconcile window_max fov_shape st results).roiList,
      r ∈ st.roiList ∨ 1 < maskSum r.mask) := by
  refine ⟨?_, ?_, ?_, fun r h => reconcile_roiList_mem window_max fov_shape results st r h⟩
  · intro h1; rw [reconcileOne, if_pos h1]
  · intro h1 h2; rw [reconcileOne, if_neg h1, if_pos h2]
  · intro h1 h2; rw [reconcileOne, if_neg h1, if_neg (by omega)]

/-- Witness for claim C3 at a concrete input: a 2 by 2 all-True mask filling a 2 by 2
field of view (so not at edge) becomes an ROI and claims its four pixels. -/
theorem claim_C3_witness :
    reconcileOne 5 (2, 2) ⟨[], [], [], []⟩
        ⟨7, ⟨(0, 0), 5⟩, (0, 0), ⟨2, 2, fun _ _ => true⟩⟩ =
      { (⟨[], [], [], []⟩ : DetectState) with
        roiList := [] ++ [⟨7, (0, 0), ⟨2, 2, fun _ _ => true⟩⟩],
        roiPixels := [] ++ maskPixels (0, 0) ⟨2, 2, fun _ _ => true⟩,
        excludedPixels := [] ++ maskPixels (0, 0) ⟨2, 2, fun _ _ => true⟩ } :=
  (claim_C3 5 (2, 2) ⟨[], [], [], []⟩
    ⟨7, ⟨(0, 0), 5⟩, (0, 0), ⟨2, 2, fun _ _ => true⟩⟩ []).2.1 (by decide) (by decide)

/-- The output of uniqueNat is strictly ascending. -/
theorem uniqueNat_sorted (l : List ℕ) : List.Sorted (· < ·) (uniqueNat l) := by
  have hs : List.Sorted (· ≤ ·) (sortNat l) := List.sorted_insertionSort _ _
  have hd : List.Sorted (· ≤ ·) (uniqueNat l) :=
    List.Pairwise.sublist (List.dedup_sublist (sortNat l)) hs
  exact hd.lt_of_le (List.nodup_dedup _)

/-- Membership in uniqueNat is membership in the input. -/
theorem uniqueNat_mem (l : List ℕ) (t : ℕ) : t ∈ uniqueNat l ↔ t ∈ l := by
  rw [uniqueNat, List.mem_dedup]
  exact (List.perm_insertionSort _ l).mem_iff

/-- Claim C8: choose_timesteps returns exactly the strictly ascending duplicate-free union
of three threshold-and-keep selections: the timesteps at or above the
(1 - filter_fraction) quantile of the seed pixel trace, and the same selection applied to
the traces of the two non-ignored pixels whose metric-image brightness is closest to
max - 1 * std and max - 2 * std, with std the inter-quartile range of the non-ignored
brightnesses divided by 1.34896. -/
theorem claim_C8 (sub_video : Video3) (seed_pt : ℕ × ℕ) (filter_fraction : ℚ)
    (image_data : Image) (pixel_ignore : Option BoolMask)
    (hok : ignoreShapeOkB image_data pixel_ignore = true) :
    ∃ ts,
      choose_timesteps sub_video seed_pt filter_fraction image_data pixel_ignore =
        Except.ok ts ∧
      List.Sorted (· < ·) ts ∧ ts.Nodup ∧
      ∀ t, t ∈ ts ↔
        (t ∈ keepTimesteps sub_video seed_pt filter_fraction ∨
         t ∈ keepTimesteps sub_video (auxPixelPt sub_video image_data pixel_ignore (-1))
           filter_fraction ∨
         t ∈ keepTimesteps sub_video (auxPixelPt sub_video image_data pixel_ignore (-2))
           filter_fraction) := by
  refine ⟨_, by rw [choose_timesteps, if_pos hok], uniqueNat_sorted _,
    List.nodup_dedup _, fun t => ?_⟩
  rw [uniqueNat_mem]
  simp [List.mem_append, or_assoc]

/-- Witness for claim C8 at a concrete input: a 2-timestep 1 by 1 video over a 1 by 1
image with no ignore mask. -/
theorem claim_C8_witness :
    ∃ ts,
      choose_timesteps ⟨2, 1, 1, fun t _ _ => (t : ℚ)⟩ (0, 0) (1/2)
          ⟨1, 1, fun _ _ => 3⟩ none = Except.ok ts ∧
      List.Sorted (· < ·) ts ∧ ts.Nodup ∧
      ∀ t, t ∈ ts ↔
        (t ∈ keepTimesteps ⟨2, 1, 1, fun t _ _ => (t : ℚ)⟩ (0, 0) (1/2) ∨
         t ∈ keepTimesteps ⟨2, 1, 1, fun t _ _ => (t : ℚ)⟩
           (auxPixelPt ⟨2, 1, 1, fun t _ _ => (t : ℚ)⟩ ⟨1, 1, fun _ _ => 3⟩ none (-1))
           (1/2) ∨
         t ∈ keepTimesteps ⟨2, 1, 1, fun t _ _ => (t : ℚ)⟩
           (auxPixelPt ⟨2, 1, 1, fun t _ _ => (t : ℚ)⟩ ⟨1, 1, fun _ _ => 3⟩ none (-2))
           (1/2)) :=
  claim_C8 ⟨2, 1, 1, fun t _ _ => (t : ℚ)⟩ (0, 0) (1/2) ⟨1, 1, fun _ _ => 3⟩ none rfl

/-- Claim C9: get_self_correlation returns exactly (0.0, 1.0) on a sub-video with fewer
than two pixels, without touching the correlation machinery, and otherwise returns the
sample mean and ddof=1 standard deviation of the per-pixel correlations against the
characteristic timeseries restricted to its brightest filter_fraction timesteps. -/
theorem claim_C9 (sub_video : SubVideo) (characteristic_timeseries : ℕ → ℚ)
    (filter_fraction : ℚ) :
    (sub_video.npix < 2 →
      get_self_correlation sub_video characteristic_timeseries filter_fraction = (0, 1)) ∧
    (2 ≤ sub_video.npix →
      get_self_correlation sub_video characteristic_timeseries filter_fraction =
        (meanQ (correlate_sub_video sub_video characteristic_timeseries filter_fraction),
         stdDdof1 (correlate_sub_video sub_video characteristic_timeseries
           filter_fraction))) := by
  constructor
  · intro h; rw [get_self_correlation, if_pos h]
  · intro h; rw [get_self_correlation, if_neg (by omega)]

/-- Reference characteristic timeseries used by the concrete merge inputs below: the
identity ramp 0, 1, 2, 3, 4. -/
def cexTs : ℕ → ℚ := fun t => (t : ℚ)

/-- One-pixel sub-video whose single trace is the ramp. -/
def cexVideoA : SubVideo := ⟨5, 1, fun t _ => (t : ℚ)⟩

/-- Two-pixel sub-video whose two traces are both the ramp. -/
def cexVideoB : SubVideo := ⟨5, 2, fun t _ => (t : ℚ)⟩

/-- Witness for claim C9 at a concrete input: the one-pixel sub-video returns exactly
(0, 1). -/
theorem claim_C9_witness :
    get_self_correlation cexVideoA cexTs (1/2) = (0, 1) :=
  (claim_C9 cexVideoA cexTs (1/2)).1 (by decide)

/-- Pairs outside the processed list keep their previous dictionary entry. -/
theorem cmm_not_mem (video_lookup : ℕ → SubVideo) (timeseries_lookup : ℕ → ℕ → ℚ)
    (self_corr_lookup : ℕ → ℚ × ℚ) (filter_fraction : ℚ) :
    ∀ (pairs : List (ℕ × ℕ)) (d : (ℕ × ℕ) → Option ℚ) (pair : ℕ × ℕ),
      pair ∉ pairs →
      _calculate_merger_metric pairs video_lookup timeseries_lookup self_corr_lookup
        filter_fraction d pair = d pair := by
  intro pairs
  induction pairs with
  | nil => intro d pair _; rfl
  | cons p rest ih =>
    intro d pair h
    have hne : pair ≠ p := fun hc => h (hc ▸ List.mem_cons_self p rest)
    have hnr : pair ∉ rest := fun hc => h (List.mem_cons_of_mem p hc)
    rw [_calculate_merger_metric, List.foldl_cons]
    rw [show (List.foldl _ _ rest : (ℕ × ℕ) → Option ℚ) =
      _calculate_merger_metric rest video_lookup timeseries_lookup self_corr_lookup
        filter_fraction _ from rfl]
    rw [ih _ pair hnr]
    simp [hne]

/-- Every pair of the processed list receives exactly its pair score. -/
theorem cmm_mem (video_lookup : ℕ → SubVideo) (timeseries_lookup : ℕ → ℕ → ℚ)
    (self_corr_lookup : ℕ → ℚ × ℚ) (filter_fraction : ℚ) :
    ∀ (pairs : List (ℕ × ℕ)) (d : (ℕ × ℕ) → Option ℚ) (pair : ℕ × ℕ),
      pair ∈ pairs →
      _calculate_merger_metric pairs video_lookup timeseries_lookup self_corr_lookup
          filter_fraction d pair =
        some (mergerMetricForPair video_lookup timeseries_lookup self_corr_lookup
          filter_fraction pair) := by
  intro pairs
  induction pairs with
  | nil => intro d pair h; cases h
  | cons p rest ih =>
    intro d pair h
    rw [_calculate_merger_metric, List.foldl_cons]
    rw [show (List.foldl _ _ rest : (ℕ × ℕ) → Option ℚ) =
      _calculate_merger_metric rest video_lookup timeseries_lookup self_corr_lookup
        filter_fraction _ from rfl]
    by_cases hr : pair ∈ rest
    · exact ih _ pair hr
    · have hp : pair = p := by
        rcases List.mem_cons.mp h with h1 | h1
        · exact h1
        · exact absurd h1 hr
      rw [cmm_not_mem _ _ _ _ _ _ _ hr]
      subst hp
      simp

/-- Claim C1 (amended): the score stored for a processed pair is the maximum of the two
directional metrics, where the direction that uses ROI a as reference and ROI b as the
probed video is forced to -999.0 exactly when the reference ROI a has fewer than 2 pixels
or an area below half the area of b (the guard tests the reference side, not the probed
side), and an unforced direction is the median z-score computed by
calculate_merger_metric. -/
theorem claim_C1 (input_pair_list : List (ℕ × ℕ)) (video_lookup : ℕ → SubVideo)
    (timeseries_lookup : ℕ → ℕ → ℚ) (self_corr_lookup : ℕ → ℚ × ℚ)
    (filter_fraction : ℚ) (output_dict : (ℕ × ℕ) → Option ℚ) (pair : ℕ × ℕ)
    (hmem : pair ∈ input_pair_list) :
    _calculate_merger_metric input_pair_list video_lookup timeseries_lookup
        self_corr_lookup filter_fraction output_dict pair =
      some (max
        (if (video_lookup pair.1).npix < 2 ∨
            ((video_lookup pair.1).npix : ℚ) < 0.5 * ((video_lookup pair.2).npix : ℚ)
          then -999
          else calculate_merger_metric (self_corr_lookup pair.1)
            (timeseries_lookup pair.1) (video_lookup pair.2) filter_fraction)
        (if (video_lookup pair.2).npix < 2 ∨
            ((video_lookup pair.2).npix : ℚ) < 0.5 * ((video_lookup pair.1).npix : ℚ)
          then -999
          else calculate_merger_metric (self_corr_lookup pair.2)
            (timeseries_lookup pair.2) (video_lookup pair.1) filter_fraction)) := by
  rw [cmm_mem _ _ _ _ _ _ _ hmem]
  rfl

/-- Modelled from the words of claim C1: the pair score with the degenerate-size guard of
each direction applied to the ROI probed as the other side (the video side) instead of to
the reference side.  Used only to exhibit that this reading disagrees with the code. -/
def claimPairScoreProbedGuard (video_lookup : ℕ → SubVideo)
    (timeseries_lookup : ℕ → ℕ → ℚ) (self_corr_lookup : ℕ → ℚ × ℚ)
    (filter_fraction : ℚ) (pair : ℕ × ℕ) : ℚ :=
  let area0 := (video_lookup pair.1).npix
  let area1 := (video_lookup pair.2).npix
  let metric01 :=
    if area1 < 2 ∨ (area1 : ℚ) < 0.5 * (area0 : ℚ) then -999
    else calculate_merger_metric (self_corr_lookup pair.1) (timeseries_lookup pair.1)
      (video_lookup pair.2) filter_fraction
  let metric10 :=
    if area0 < 2 ∨ (area0 : ℚ) < 0.5 * (area1 : ℚ) then -999
    else calculate_merger_metric (self_corr_lookup pair.2) (timeseries_lookup pair.2)
      (video_lookup pair.1) filter_fraction
  max metric01 metric10

/-- Video lookup of the concrete counterexample pair (0, 1): ROI 0 has one pixel, ROI 1
has two pixels, all traces equal to the ramp. -/
def cexVideoLookup : ℕ → SubVideo := fun i => if i = 0 then cexVideoA else cexVideoB

/-- Timeseries lookup of the concrete counterexample: every ROI has the ramp as its
characteristic timeseries. -/
def cexTsLookup : ℕ → ℕ → ℚ := fun _ => cexTs

/-- Self-correlation lookup of the concrete counterexample: model (0, 1) for ROI 0 and
(0, 1/2) for ROI 1, so the two directions give different unforced metrics. -/
def cexScLookup : ℕ → ℚ × ℚ := fun i => if i = 0 then (0, 1) else (0, 1/2)

/-- Counterexample to claim C1 as stated: on the pair (0, 1) with a one-pixel ROI 0 and a
two-pixel ROI 1, the code stores 2 (direction 1 as reference, probing the one-pixel
video, z-score (1 - 0) / (1/2)), while the claimed probed-side guard would force that
direction and give 1 (direction 0 as reference, z-score (1 - 0) / 1); so the stored score
differs from the score the claim prescribes. -/
theorem claim_C1_counterexample :
    _calculate_merger_metric [(0, 1)] cexVideoLookup cexTsLookup cexScLookup (1/2)
        (fun _ => none) (0, 1) = some 2 ∧
    claimPairScoreProbedGuard cexVideoLookup cexTsLookup cexScLookup (1/2) (0, 1) = 1 ∧
    (2 : ℚ) ≠ 1 :=
  ⟨by set_option maxRecDepth 100000 in with_unfolding_all rfl,
   by set_option maxRecDepth 100000 in with_unfolding_all rfl,
   by norm_num⟩

/-- Witness for claim C1 at a concrete input: the stored score of the pair (0, 1) of the
counterexample lookups equals the maximum of the two guarded directional metrics. -/
theorem claim_C1_witness :
    _calculate_merger_metric [(0, 1)] cexVideoLookup cexTsLookup cexScLookup (1/2)
        (fun _ => none) (0, 1) =
      some (max
        (if (cexVideoLookup (0, 1).1).npix < 2 ∨
            ((cexVideoLookup (0, 1).1).npix : ℚ) < 0.5 * ((cexVideoLookup (0, 1).2).npix : ℚ)
          then -999
          else calculate_merger_metric (cexScLookup (0, 1).1) (cexTsLookup (0, 1).1)
            (cexVideoLookup (0, 1).2) (1/2))
        (if (cexVideoLookup (0, 1).2).npix < 2 ∨
            ((cexVideoLookup (0, 1).2).npix : ℚ) < 0.5 * ((cexVideoLookup (0, 1).1).npix : ℚ)
          then -999
          else calculate_merger_metric (cexScLookup (0, 1).2) (cexTsLookup (0, 1).2)
            (cexVideoLookup (0, 1).1) (1/2))) :=
  claim_C1 [(0, 1)] cexVideoLookup cexTsLookup cexScLookup (1/2) (fun _ => none) (0, 1)
    (List.mem_singleton.mpr rfl)

/-- Concatenating the chunks gives back the original list (positive chunk size, enough
fuel). -/
theorem chunksOfAux_flatten {α : Type} (k : ℕ) (hk : 0 < k) :
    ∀ (fuel : ℕ) (l : List α), l.length ≤ fuel → (chunksOfAux k fuel l).flatten = l := by
  intro fuel
  induction fuel with
  | zero =>
    intro l h
    cases l with
    | nil => rfl
    | cons x xs => simp at h
  | succ fuel ih =>
    intro l h
    cases l with
    | nil => rfl
    | cons x xs =>
      rw [chunksOfAux, List.flatten_cons,
        ih _ (by rw [List.length_drop]; simp at h ⊢; omega), List.take_append_drop]

/-- Concatenating the chunks of chunksOf gives back the original list. -/
theorem chunksOf_flatten {α : Type} (l : List α) (k : ℕ) (hk : 0 < k) :
    (chunksOf l k).flatten = l :=
  chunksOfAux_flatten k hk l.length l le_rfl

/-- Every chunk produced by the chunking loop is nonempty and no longer than the chunk
size. -/
theorem chunksOfAux_mem {α : Type} (k : ℕ) (hk : 0 < k) :
    ∀ (fuel : ℕ) (l : List α) (chunk : List α), chunk ∈ chunksOfAux k fuel l →
      chunk ≠ [] ∧ chunk.length ≤ k := by
  intro fuel
  induction fuel with
  | zero =>
    intro l chunk h
    cases l with
    | nil => cases h
    | cons x xs => cases h
  | succ fuel ih =>
    intro l chunk h
    cases l with
    | nil => cases h
    | cons x xs =>
      rw [chunksOfAux] at h
      rcases List.mem_cons.mp h with h1 | h1
      · subst h1
        obtain ⟨j, rfl⟩ : ∃ j, k = j + 1 := ⟨k - 1, by omega⟩
        refine ⟨by simp, ?_⟩
        rw [List.length_take]
        exact min_le_left _ _
      · exact ih _ chunk h1

/-- The first component of a chunk pair is among the ROI ids of the chunk. -/
theorem chunkRoiIds_mem_fst (chunk : List (ℕ × ℕ)) (pair : ℕ × ℕ) (h : pair ∈ chunk) :
    pair.1 ∈ chunkRoiIds chunk := by
  rw [chunkRoiIds, List.mem_dedup, List.mem_append]
  exact Or.inl (List.mem_map.mpr ⟨pair, h, rfl⟩)

/-- The second component of a chunk pair is among the ROI ids of the chunk. -/
theorem chunkRoiIds_mem_snd (chunk : List (ℕ × ℕ)) (pair : ℕ × ℕ) (h : pair ∈ chunk) :
    pair.2 ∈ chunkRoiIds chunk := by
  rw [chunkRoiIds, List.mem_dedup, List.mem_append]
  exact Or.inr (List.mem_map.mpr ⟨pair, h, rfl⟩)

/-- A worker sees only the restricted lookups, but for the pairs of its own chunk the
restriction is invisible: the stored score is the one computed from the full lookups. -/
theorem mergeChunkStep_mem (video_lookup : ℕ → SubVideo) (timeseries_lookup : ℕ → ℕ → ℚ)
    (self_corr_lookup : ℕ → ℚ × ℚ) (filter_fraction : ℚ) (d : (ℕ × ℕ) → Option ℚ)
    (chunk : List (ℕ × ℕ)) (pair : ℕ × ℕ) (h : pair ∈ chunk) :
    mergeChunkStep video_lookup timeseries_lookup self_corr_lookup filter_fraction d
        chunk pair =
      some (mergerMetricForPair video_lookup timeseries_lookup self_corr_lookup
        filter_fraction pair) := by
  rw [mergeChunkStep, cmm_mem _ _ _ _ _ _ _ h]
  have h1 := chunkRoiIds_mem_fst chunk pair h
  have h2 := chunkRoiIds_mem_snd chunk pair h
  simp [mergerMetricForPair, restrictLookup, h1, h2]

/-- A worker leaves the dictionary entries of pairs outside its chunk unchanged. -/
theorem mergeChunkStep_not_mem (video_lookup : ℕ → SubVideo)
    (timeseries_lookup : ℕ → ℕ → ℚ) (self_corr_lookup : ℕ → ℚ × ℚ)
    (filter_fraction : ℚ) (d : (ℕ × ℕ) → Option ℚ) (chunk : List (ℕ × ℕ))
    (pair : ℕ × ℕ) (h : pair ∉ chunk) :
    mergeChunkStep video_lookup timeseries_lookup self_corr_lookup filter_fraction d
      chunk pair = d pair := by
  rw [mergeChunkStep, cmm_not_mem _ _ _ _ _ _ _ h]

/-- Folding the workers over a chunk list: a pair of some chunk gets its full-lookup
score, a pair of no chunk keeps its previous entry. -/
theorem mergeFold_spec (video_lookup : ℕ → SubVideo) (timeseries_lookup : ℕ → ℕ → ℚ)
    (self_corr_lookup : ℕ → ℚ × ℚ) (filter_fraction : ℚ) :
    ∀ (chunks : List (List (ℕ × ℕ))) (d : (ℕ × ℕ) → Option ℚ) (pair : ℕ × ℕ),
      (pair ∈ chunks.flatten →
        chunks.foldl
            (mergeChunkStep video_lookup timeseries_lookup self_corr_lookup
              filter_fraction) d pair =
          some (mergerMetricForPair video_lookup timeseries_lookup self_corr_lookup
            filter_fraction pair)) ∧
      (pair ∉ chunks.flatten →
        chunks.foldl
          (mergeChunkStep video_lookup timeseries_lookup self_corr_lookup
            filter_fraction) d pair = d pair) := by
  intro chunks
  induction chunks with
  | nil =>
    intro d pair
    exact ⟨fun h => absurd h (List.not_mem_nil pair), fun _ => rfl⟩
  | cons chunk rest ih =>
    intro d pair
    rw [List.foldl_cons]
    constructor
    · intro h
      rw [List.flatten_cons, List.mem_append] at h
      by_cases hr : pair ∈ rest.flatten
      · exact (ih _ pair).1 hr
      · have hp : pair ∈ chunk := by
          rcases h with h | h
          · exact h
          · exact absurd h hr
        rw [(ih _ pair).2 hr, mergeChunkStep_mem _ _ _ _ _ _ _ hp]
    · intro h
      rw [List.flatten_cons, List.mem_append] at h
      push_neg at h
      rw [(ih _ pair).2 h.2, mergeChunkStep_not_mem _ _ _ _ _ _ _ h.1]

/-- Claim C5 (amended): get_merger_metric_from_pairs cuts the candidate list into
contiguous chunks of size max(n_pairs // (4 * n_processors - 1), 1) (so roughly
4 * n_processors - 1 chunks, not 4 * (n_processors - 1)), hands each worker only the
lookups restricted to the ROI ids of its chunk, and returns a mapping holding exactly one
metric value (the full-lookup pair score) for every input pair and nothing else. -/
theorem claim_C5 (potential_mergers : List (ℕ × ℕ)) (video_lookup : ℕ → SubVideo)
    (timeseries_lookup : ℕ → ℕ → ℚ) (filter_fraction : ℚ) (n_processors : ℕ)
    (hp : 0 < n_processors) :
    chunkSizeOfPairs potential_mergers.length n_processors =
      max (potential_mergers.length / (4 * n_processors - 1)) 1 ∧
    (chunksOf potential_mergers
        (chunkSizeOfPairs potential_mergers.length n_processors)).flatten =
      potential_mergers ∧
    (∀ chunk ∈ chunksOf potential_mergers
        (chunkSizeOfPairs potential_mergers.length n_processors),
      chunk ≠ [] ∧
        chunk.length ≤ chunkSizeOfPairs potential_mergers.length n_processors) ∧
    (∀ pair ∈ potential_mergers,
      get_merger_metric_from_pairs potential_mergers video_lookup timeseries_lookup
          filter_fraction n_processors pair =
        some (mergerMetricForPair video_lookup timeseries_lookup
          (create_self_corr_lookup video_lookup timeseries_lookup filter_fraction)
          filter_fraction pair)) ∧
    (∀ pair, pair ∉ potential_mergers →
      get_merger_metric_from_pairs potential_mergers video_lookup timeseries_lookup
        filter_fraction n_processors pair = none) := by
  have hk : 0 < chunkSizeOfPairs potential_mergers.length n_processors :=
    lt_of_lt_of_le Nat.one_pos (le_max_right _ _)
  have hflat := chunksOf_flatten potential_mergers
    (chunkSizeOfPairs potential_mergers.length n_processors) hk
  refine ⟨rfl, hflat, ?_, ?_, ?_⟩
  · intro chunk hchunk
    exact chunksOfAux_mem _ hk _ _ chunk hchunk
  · intro pair hpair
    have hmem : pair ∈ (chunksOf potential_mergers
        (chunkSizeOfPairs potential_mergers.length n_processors)).flatten := by
      rw [hflat]; exact hpair
    exact (mergeFold_spec video_lookup timeseries_lookup _ filter_fraction _ _ pair).1 hmem
  · intro pair hpair
    have hmem : pair ∉ (chunksOf potential_mergers
        (chunkSizeOfPairs potential_mergers.length n_processors)).flatten := by
      rw [hflat]; exact hpair
    exact (mergeFold_spec video_lookup timeseries_lookup _ filter_fraction _ _ pair).2 hmem

/-- Modelled from the words of claim C5: chunk size n_pairs divided by
4 * (n_processors - 1), floored at a minimum of 1.  Used only to exhibit that this
formula disagrees with the code, which divides by 4 * n_processors - 1. -/
def claimChunkSize (n_pairs n_processors : ℕ) : ℕ :=
  max (n_pairs / (4 * (n_processors - 1))) 1

/-- Concrete list of eight candidate pairs. -/
def cexPairs8 : List (ℕ × ℕ) :=
  [(0, 1), (2, 3), (4, 5), (6, 7), (8, 9), (10, 11), (12, 13), (14, 15)]

/-- Counterexample to claim C5 as stated: with 8 pairs and 2 processors the code uses
chunk size 8 // (4 * 2 - 1) = 1 and produces 8 chunks, while the claimed formula
8 // (4 * (2 - 1)) = 2 would produce 4 chunks of size 2; the two chunk decompositions of
the same list differ, already in their first chunk. -/
theorem claim_C5_counterexample :
    chunkSizeOfPairs cexPairs8.length 2 = 1 ∧
    claimChunkSize cexPairs8.length 2 = 2 ∧
    chunkSizeOfPairs cexPairs8.length 2 ≠ claimChunkSize cexPairs8.length 2 ∧
    (chunksOf cexPairs8 (chunkSizeOfPairs cexPairs8.length 2)).length = 8 ∧
    (chunksOf cexPairs8 (claimChunkSize cexPairs8.length 2)).length = 4 ∧
    (chunksOf cexPairs8 (chunkSizeOfPairs cexPairs8.length 2)).headD [] = [(0, 1)] ∧
    (chunksOf cexPairs8 (claimChunkSize cexPairs8.length 2)).headD [] =
      [(0, 1), (2, 3)] := by
  decide

/-- Witness for claim C5 at a concrete input: the single pair (0, 1) of the
counterexample lookups, with 2 processors. -/
theorem claim_C5_witness :
    chunkSizeOfPairs ([((0 : ℕ), (1 : ℕ))]).length 2 =
      max (([((0 : ℕ), (1 : ℕ))]).length / (4 * 2 - 1)) 1 ∧
    (chunksOf [((0 : ℕ), (1 : ℕ))]
        (chunkSizeOfPairs ([((0 : ℕ), (1 : ℕ))]).length 2)).flatten =
      [((0 : ℕ), (1 : ℕ))] ∧
    (∀ chunk ∈ chunksOf [((0 : ℕ), (1 : ℕ))]
        (chunkSizeOfPairs ([((0 : ℕ), (1 : ℕ))]).length 2),
      chunk ≠ [] ∧
        chunk.length ≤ chunkSizeOfPairs ([((0 : ℕ), (1 : ℕ))]).length 2) ∧
    (∀ pair ∈ [((0 : ℕ), (1 : ℕ))],
      get_merger_metric_from_pairs [((0 : ℕ), (1 : ℕ))] cexVideoLookup cexTsLookup
          (1/2) 2 pair =
        some (mergerMetricForPair cexVideoLookup cexTsLookup
          (create_self_corr_lookup cexVideoLookup cexTsLookup (1/2)) (1/2) pair)) ∧
    (∀ pair, pair ∉ [((0 : ℕ), (1 : ℕ))] →
      get_merger_metric_from_pairs [((0 : ℕ), (1 : ℕ))] cexVideoLookup cexTsLookup
        (1/2) 2 pair = none) :=
  claim_C5 [(0, 1)] cexVideoLookup cexTsLookup (1/2) 2 (by decide)
